import Mathlib

/-!
Shallow embedding of `src/connection_manager.rs` (Hyperion connection
manager of drm-vc4-grabber): connection state machine, exponential
backoff, runtime network-error classification, health check, and the
image-send fallback path.

Conventions of the embedding:
* `Instant` values are modelled as millisecond timestamps (`Nat`); each
  operation that calls `Instant::now()`/`elapsed()` takes the current
  time `now : Nat` as an argument, and `t.elapsed()` becomes `now - t`
  (truncated subtraction; the process clock is monotone, so `now ≥ t`
  on every real execution).
* The effects of the external world are oracle arguments: whether
  `TcpStream::connect` succeeds, whether each handshake step succeeds,
  whether the health-check `peer_addr` probe succeeds, and the result
  of a `send_image` write.
* The `u32` counters (`consecutive_failures`, `total_reconnections`)
  advance by at most 1 per operation, so they are modelled as plain
  `Nat`.  The `u64` backoff computation can overflow inside a single
  call (`initial_backoff_ms * 2_u64.pow(..)`), so it carries an
  explicit `% 2^64` (release-mode wrap-around semantics).
* The logger only writes log lines and is dropped from the model.
* The `hyperion` codec module is not part of the sources; its functions
  are modelled from the spec as events appended to a per-transport
  trace (see `ProtoEvent`).
-/

/-- Wire-protocol events observed on one transport, in order.  Modelled
from the spec: the `hyperion` codec module (`register_direct`,
`read_reply`, `send_color_warm`, `send_image`) is not among the provided
sources; per spec §4.2 each call writes a `Register` command, consumes
one reply, writes a `Color` command, or writes an `Image` command. -/
inductive ProtoEvent where
  | register
  | replyRead
  | color
  | image
  deriving DecidableEq, Repr

/-- A `TcpStream`, abstracted to the ordered trace of protocol
operations performed on it since it was opened. -/
structure TcpStream where
  trace : List ProtoEvent
  deriving DecidableEq, Repr

/-- The subset of `std::io::ErrorKind` the manager distinguishes, plus
catch-all `other`. -/
inductive ErrorKind where
  | brokenPipe
  | connectionAborted
  | connectionReset
  | unexpectedEof
  | notConnected
  | timedOut
  | other
  deriving DecidableEq, Repr

/-- Rust `std::io::Error`: a kind plus a message. -/
structure IOError where
  kind : ErrorKind
  msg : String
  deriving DecidableEq, Repr

/-- Rust `ConnectionConfig` (connection_manager.rs:10). -/
structure ConnectionConfig where
  address : String
  max_retries : Nat
  initial_backoff_ms : Nat
  max_backoff_ms : Nat
  connection_timeout_ms : Nat
  health_check_interval_ms : Nat
  deriving DecidableEq, Repr

/-- Rust `ConnectionConfig::default()` (connection_manager.rs:20). -/
def ConnectionConfig.default : ConnectionConfig :=
  { address := "127.0.0.1:19400"
    max_retries := 5
    initial_backoff_ms := 100
    max_backoff_ms := 5000
    connection_timeout_ms := 3000
    health_check_interval_ms := 30000 }

/-- Rust `ConnectionState` (connection_manager.rs:33). -/
inductive ConnectionState where
  | Connected
  | Disconnected
  | Reconnecting
  | Failed
  deriving DecidableEq, Repr

/-- Rust `HyperionConnectionManager` (connection_manager.rs:40); the logger
field is omitted (it only emits log lines). -/
structure HyperionConnectionManager where
  config : ConnectionConfig
  socket : Option TcpStream
  state : ConnectionState
  last_connection_attempt : Option Nat
  consecutive_failures : Nat
  last_health_check : Nat
  total_reconnections : Nat
  connection_start_time : Option Nat
  deriving DecidableEq, Repr

namespace HyperionConnectionManager

/-- Rust `HyperionConnectionManager::new` (connection_manager.rs:53); `now`
is the `Instant::now()` stored into `last_health_check`. -/
def new (config : ConnectionConfig) (now : Nat) : HyperionConnectionManager :=
  { config := config
    socket := none
    state := .Disconnected
    last_connection_attempt := none
    consecutive_failures := 0
    last_health_check := now
    total_reconnections := 0
    connection_start_time := none }

end HyperionConnectionManager

/-- Rust `register_direct(socket)` — modelled from the spec: writes one
`Register` command on the transport; the oracle `r` tells whether the
write failed. -/
def register_direct (r : Option IOError) (s : TcpStream) : Except IOError TcpStream :=
  match r with
  | some e => .error e
  | none => .ok { trace := s.trace ++ [.register] }

/-- Rust `read_reply(socket, false)` — modelled from the spec: consumes one
length-prefixed reply; the oracle `r` tells whether the read failed. -/
def read_reply (r : Option IOError) (s : TcpStream) : Except IOError TcpStream :=
  match r with
  | some e => .error e
  | none => .ok { trace := s.trace ++ [.replyRead] }

/-- Rust `send_color_warm(socket, false)` — modelled from the spec: writes
one `Color` command; the oracle `r` tells whether the write failed. -/
def send_color_warm (r : Option IOError) (s : TcpStream) : Except IOError TcpStream :=
  match r with
  | some e => .error e
  | none => .ok { trace := s.trace ++ [.color] }

/-- Rust `send_image(socket, img, verbose)` — modelled from the spec: writes
one framed `Image` command; the oracle `r` tells whether the write
failed. -/
def send_image (r : Option IOError) (s : TcpStream) : Except IOError TcpStream :=
  match r with
  | some e => .error e
  | none => .ok { trace := s.trace ++ [.image] }

/-- Outcome oracle for one `attempt_connection` call: either
`TcpStream::connect` fails, or `set_read_timeout`/`set_write_timeout`
fails (propagated by `?` before any failure accounting), or the
handshake runs with per-step oracles (`none` = the step succeeds). -/
inductive ConnectOutcome where
  | tcpFail (e : IOError)
  | setupFail (e : IOError)
  | handshake (reg rep col : Option IOError)
  deriving DecidableEq, Repr

namespace HyperionConnectionManager

/-- Rust `perform_handshake` (connection_manager.rs:176): register, read the
reply, then send the initial warm color; each step short-circuits with
`?`. -/
def perform_handshake (reg rep col : Option IOError) (s : TcpStream) :
    Except IOError TcpStream := do
  let s ← register_direct reg s
  let s ← read_reply rep s
  let s ← send_color_warm col s
  .ok s

/-- Rust `calculate_backoff_duration` (connection_manager.rs:213), in
milliseconds: `min(initial_backoff_ms * 2u64.pow(cf.saturating_sub(1)),
max_backoff_ms)` with u64 wrap-around made explicit. -/
def calculate_backoff_duration (m : HyperionConnectionManager) : Nat :=
  min
    (m.config.initial_backoff_ms * (2 ^ (m.consecutive_failures - 1) % 2 ^ 64) % 2 ^ 64)
    m.config.max_backoff_ms

/-- Rust `handle_connection_failure` (connection_manager.rs:188): bump
`consecutive_failures`, drop the socket, and go `Failed` once the
maximum is reached, else `Reconnecting`. -/
def handle_connection_failure (m : HyperionConnectionManager) :
    HyperionConnectionManager :=
  let m := { m with consecutive_failures := m.consecutive_failures + 1, socket := none }
  if m.consecutive_failures ≥ m.config.max_retries then
    { m with state := .Failed }
  else
    { m with state := .Reconnecting }

/-- Rust `attempt_connection` (connection_manager.rs:124): mark
`Reconnecting`, stamp the attempt time, then connect, set timeouts and
run the handshake; on success install the fresh socket.  The returned
`Option IOError` is the Rust `Result<()>` error. -/
def attempt_connection (now : Nat) (oc : ConnectOutcome)
    (m : HyperionConnectionManager) :
    HyperionConnectionManager × Option IOError :=
  let m := { m with state := .Reconnecting, last_connection_attempt := some now }
  match oc with
  | .tcpFail e => (m.handle_connection_failure, some e)
  | .setupFail e => (m, some e)
  | .handshake reg rep col =>
    match perform_handshake reg rep col { trace := [] } with
    | .error e => (m.handle_connection_failure, some e)
    | .ok s =>
      ({ m with socket := some s, state := .Connected, consecutive_failures := 0,
                connection_start_time := some now }, none)

/-- Rust `perform_health_check` (connection_manager.rs:248): only acts when
`Connected` with a socket; `dead` is the oracle for `peer_addr()`
failing, in which case the socket is dropped and the state demoted. -/
def perform_health_check (dead : Bool) (m : HyperionConnectionManager) :
    HyperionConnectionManager :=
  match m.state, m.socket with
  | .Connected, some _ =>
    if dead then { m with socket := none, state := .Disconnected } else m
  | _, _ => m

/-- The tail of `ensure_connected` for the branches that ran
`attempt_connection()?`: propagate its error, else return the installed
socket (connection_manager.rs:112-120). -/
def attemptFinish (now : Nat) (oc : ConnectOutcome)
    (m : HyperionConnectionManager) :
    HyperionConnectionManager × Except IOError TcpStream :=
  match attempt_connection now oc m with
  | (m, some e) => (m, .error e)
  | (m, none) =>
    match m.socket with
    | some s => (m, .ok s)
    | none => (m, .error ⟨.notConnected, "Failed to establish connection"⟩)

/-- The opening lines of `ensure_connected`
(connection_manager.rs:76-80): when the health-check interval has
elapsed, run the health check and restamp `last_health_check`. -/
def healthStep (now : Nat) (dead : Bool) (m : HyperionConnectionManager) :
    HyperionConnectionManager :=
  if now - m.last_health_check ≥ m.config.health_check_interval_ms then
    { m.perform_health_check dead with last_health_check := now }
  else m

/-- The state dispatch of `ensure_connected`
(connection_manager.rs:82-120). -/
def ensureDispatch (now : Nat) (oc : ConnectOutcome)
    (m : HyperionConnectionManager) :
    HyperionConnectionManager × Except IOError TcpStream :=
  match m.state with
  | .Connected =>
    match m.socket with
    | some s => (m, .ok s)
    | none =>
      ({ m with state := .Disconnected },
       .error ⟨.notConnected, "Failed to establish connection"⟩)
  | .Disconnected | .Failed => m.attemptFinish now oc
  | .Reconnecting =>
    match m.last_connection_attempt with
    | some last =>
      if now - last ≥ m.calculate_backoff_duration then
        m.attemptFinish now oc
      else
        (m, .error ⟨.notConnected, "Still in backoff period"⟩)
    | none => m.attemptFinish now oc

/-- Rust `ensure_connected` (connection_manager.rs:75): run the health check
when its interval elapsed, then dispatch on the state; `Ok` carries the
usable socket (the Rust `&mut TcpStream`), which is also the manager's
installed socket. -/
def ensure_connected (now : Nat) (dead : Bool) (oc : ConnectOutcome)
    (m : HyperionConnectionManager) :
    HyperionConnectionManager × Except IOError TcpStream :=
  ensureDispatch now oc (healthStep now dead m)

/-- The reconnectable error kinds of `handle_network_error`
(connection_manager.rs:223-229). -/
def isReconnectableKind : ErrorKind → Bool
  | .brokenPipe => true
  | .connectionAborted => true
  | .connectionReset => true
  | .unexpectedEof => true
  | _ => false

/-- Rust `handle_network_error` (connection_manager.rs:222): on a
reconnectable kind drop the socket, demote to `Disconnected`, count a
reconnection and zero `consecutive_failures`; the returned `Bool` is
`should_reconnect`. -/
def handle_network_error (e : IOError) (m : HyperionConnectionManager) :
    HyperionConnectionManager × Bool :=
  if isReconnectableKind e.kind then
    ({ m with socket := none, state := .Disconnected,
              total_reconnections := m.total_reconnections + 1,
              consecutive_failures := 0 }, true)
  else
    (m, false)

/-- Rust `get_stats` snapshot type (connection_manager.rs:366). -/
structure Stats where
  state : String
  consecutive_failures : Nat
  total_reconnections : Nat
  uptime_seconds : Nat
  last_attempt_ago_ms : Nat
  deriving DecidableEq, Repr

/-- The `format!("{:?}", state)` label. -/
def stateLabel : ConnectionState → String
  | .Connected => "Connected"
  | .Disconnected => "Disconnected"
  | .Reconnecting => "Reconnecting"
  | .Failed => "Failed"

/-- Rust `get_stats` (connection_manager.rs:276): a read-only snapshot. -/
def get_stats (now : Nat) (m : HyperionConnectionManager) : Stats :=
  { state := stateLabel m.state
    consecutive_failures := m.consecutive_failures
    total_reconnections := m.total_reconnections
    uptime_seconds := (m.connection_start_time.map (fun t => (now - t) / 1000)).getD 0
    last_attempt_ago_ms := (m.last_connection_attempt.map (fun t => now - t)).getD 0 }

/-- Rust `is_connected` (connection_manager.rs:291). -/
def is_connected (m : HyperionConnectionManager) : Bool :=
  m.state = .Connected ∧ m.socket.isSome

/-- Rust `is_failed` (connection_manager.rs:296). -/
def is_failed (m : HyperionConnectionManager) : Bool :=
  m.state = .Failed

/-- Rust `reset_failure_state` (connection_manager.rs:301): only acts when
`Failed`. -/
def reset_failure_state (m : HyperionConnectionManager) :
    HyperionConnectionManager :=
  if m.state = .Failed then
    { m with state := .Disconnected, consecutive_failures := 0 }
  else m

/-- Rust `force_reconnect` (connection_manager.rs:312): unconditional. -/
def force_reconnect (m : HyperionConnectionManager) :
    HyperionConnectionManager :=
  { m with socket := none, state := .Disconnected, consecutive_failures := 0 }

/-- Rust `send_image_with_fallback` (connection_manager.rs:323): ensure a
session, write the image, classify a write error; `sr` is the oracle
for the `send_image` write.  `Ok true` = sent, `Ok false` = not sent
but no error; the socket write goes through the stream returned by
`ensure_connected`, which is the installed one. -/
def send_image_with_fallback (now : Nat) (dead : Bool) (oc : ConnectOutcome)
    (sr : Option IOError) (m : HyperionConnectionManager) :
    HyperionConnectionManager × Except IOError Bool :=
  match m.ensure_connected now dead oc with
  | (m, .ok s) =>
    match send_image sr s with
    | .ok s => ({ m with socket := some s }, .ok true)
    | .error e =>
      match m.handle_network_error e with
      | (m, true) => (m, .ok false)
      | (m, false) => (m, .error e)
  | (m, .error _e) =>
    if m.is_failed then
      (m, .ok false)
    else
      (m, .ok false)

end HyperionConnectionManager

/-- One invocation of a public operation of the manager, with its
oracle inputs. -/
inductive Op where
  | ensure (now : Nat) (dead : Bool) (oc : ConnectOutcome)
  | netError (e : IOError)
  | reset
  | force
  | send (now : Nat) (dead : Bool) (oc : ConnectOutcome) (sr : Option IOError)
  | health (dead : Bool)
  | stats (now : Nat)
  deriving DecidableEq, Repr

namespace HyperionConnectionManager

/-- The state transformation of one public operation (`get_stats` takes
`&self` and mutates nothing). -/
def applyOp : Op → HyperionConnectionManager → HyperionConnectionManager
  | .ensure now dead oc, m => (m.ensure_connected now dead oc).1
  | .netError e, m => (m.handle_network_error e).1
  | .reset, m => m.reset_failure_state
  | .force, m => m.force_reconnect
  | .send now dead oc sr, m => (m.send_image_with_fallback now dead oc sr).1
  | .health dead, m => m.perform_health_check dead
  | .stats _, m => m

/-- States of the manager reachable from `new` by any sequence of
public operations. -/
inductive Reachable (cfg : ConnectionConfig) : HyperionConnectionManager → Prop
  | init (t0 : Nat) : Reachable cfg (new cfg t0)
  | step (op : Op) (m : HyperionConnectionManager) :
      Reachable cfg m → Reachable cfg (applyOp op m)

/-- A transport trace that began with the full handshake — Register
written, its reply consumed, the initial color probe written — and
afterwards carries only image writes. -/
def TraceOk (t : List ProtoEvent) : Prop :=
  ∃ rest, t = .register :: .replyRead :: .color :: rest ∧
    ∀ e ∈ rest, e = ProtoEvent.image

/-- The state invariant: the socket is present exactly when the state
is `Connected`, and every installed socket completed the handshake
before any image write. -/
def Inv (m : HyperionConnectionManager) : Prop :=
  (m.socket.isSome ↔ m.state = .Connected) ∧
    ∀ s, m.socket = some s → TraceOk s.trace

/-- Whether a `ConnectOutcome` oracle lets the whole connect attempt
(TCP open, timeout setup, three handshake steps) succeed. -/
def connectSucceeds : ConnectOutcome → Bool
  | .handshake none none none => true
  | _ => false

/-- A small test configuration: one retry, base backoff 100 ms. -/
def cfgA : ConnectionConfig :=
  { address := "127.0.0.1:19400"
    max_retries := 1
    initial_backoff_ms := 100
    max_backoff_ms := 5000
    connection_timeout_ms := 3000
    health_check_interval_ms := 30000 }

/-- A connect-refused error, as classified by the manager. -/
def errConn : IOError := ⟨.other, "connection refused"⟩

/-- A reachable manager in state `Failed`: one `ensure_connected` call
whose TCP connect fails, under `max_retries = 1`. -/
def mFailed : HyperionConnectionManager :=
  applyOp (.ensure 0 false (.tcpFail errConn)) (new cfgA 0)

/-- A reachable manager in state `Connected`: one `ensure_connected`
call whose connect and handshake succeed. -/
def mConnected : HyperionConnectionManager :=
  applyOp (.ensure 0 false (.handshake none none none)) (new cfgA 0)

/-- A manager one failure into `Reconnecting` with an attempt stamped
at time 0 under the default configuration. -/
def mRecon : HyperionConnectionManager :=
  { new ConnectionConfig.default 0 with
      state := .Reconnecting
      last_connection_attempt := some 0
      consecutive_failures := 1 }

/-- A configuration on which the u64 backoff product wraps:
`initial_backoff_ms * 2^(2-1) = 2^64`. -/
def cfgOv : ConnectionConfig :=
  { address := "127.0.0.1:19400"
    max_retries := 2
    initial_backoff_ms := 2 ^ 63
    max_backoff_ms := 2 ^ 64 - 1
    connection_timeout_ms := 3000
    health_check_interval_ms := 30000 }

/-- A manager with two consecutive failures under `cfgOv`. -/
def mOv : HyperionConnectionManager :=
  { new cfgOv 0 with consecutive_failures := 2 }

theorem inv_new (cfg : ConnectionConfig) (t0 : Nat) : Inv (new cfg t0) := by
  refine ⟨by simp [new], fun s hs => by simp [new] at hs⟩

theorem inv_handle_connection_failure (m : HyperionConnectionManager) :
    Inv m.handle_connection_failure := by
  unfold handle_connection_failure
  dsimp only
  split <;>
    exact ⟨by simp, fun s hs => by simp at hs⟩

theorem inv_attempt_connection (now : Nat) (oc : ConnectOutcome)
    (m : HyperionConnectionManager) (hs : m.socket = none) :
    Inv (m.attempt_connection now oc).1 := by
  unfold attempt_connection
  match oc with
  | .tcpFail e => exact inv_handle_connection_failure _
  | .setupFail e => exact ⟨by simp [hs], fun s h => by simp [hs] at h⟩
  | .handshake reg rep col =>
    cases reg with
    | some e => exact inv_handle_connection_failure _
    | none =>
      cases rep with
      | some e =>
        simpa [perform_handshake, register_direct, read_reply, bind, Except.bind] using
          inv_handle_connection_failure _
      | none =>
        cases col with
        | some e =>
          simpa [perform_handshake, register_direct, read_reply, send_color_warm,
            bind, Except.bind] using inv_handle_connection_failure _
        | none =>
          refine ⟨by simp [perform_handshake, register_direct, read_reply,
            send_color_warm, bind, Except.bind], fun s h => ?_⟩
          simp [perform_handshake, register_direct, read_reply, send_color_warm,
            bind, Except.bind] at h
          exact ⟨[], by simp [← h], by simp⟩

theorem inv_attemptFinish (now : Nat) (oc : ConnectOutcome)
    (m : HyperionConnectionManager) (hs : m.socket = none) :
    Inv (m.attemptFinish now oc).1 := by
  unfold attemptFinish
  have h := inv_attempt_connection now oc m hs
  split
  · next heq => rw [show (m.attempt_connection now oc).1 = _ from congrArg Prod.fst heq] at h; exact h
  · next m' heq =>
    rw [show (m.attempt_connection now oc).1 = m' from congrArg Prod.fst heq] at h
    split <;> exact h

theorem inv_perform_health_check (dead : Bool) (m : HyperionConnectionManager)
    (h : Inv m) : Inv (m.perform_health_check dead) := by
  unfold perform_health_check
  split
  · split
    · exact ⟨by simp, fun s hs => by simp at hs⟩
    · exact h
  · exact h

theorem inv_healthStep (now : Nat) (dead : Bool) (m : HyperionConnectionManager)
    (h : Inv m) : Inv (healthStep now dead m) := by
  unfold healthStep
  split
  · have h2 := inv_perform_health_check dead m h
    exact ⟨h2.1, h2.2⟩
  · exact h

theorem inv_ensureDispatch (now : Nat) (oc : ConnectOutcome)
    (m : HyperionConnectionManager) (h : Inv m) :
    Inv (ensureDispatch now oc m).1 := by
  unfold ensureDispatch
  obtain ⟨c0, s0, st0, la0, cf0, lhc0, tr0, cst0⟩ := m
  cases st0 with
  | Connected =>
    cases s0 with
    | some s => exact h
    | none => exact ⟨by simp, fun s hs => by simp at hs⟩
  | Disconnected =>
    refine inv_attemptFinish now oc _ ?_
    have := h.1
    simp at this
    simpa using this
  | Failed =>
    refine inv_attemptFinish now oc _ ?_
    have := h.1
    simp at this
    simpa using this
  | Reconnecting =>
    have hs : s0 = none := by
      have := h.1
      simp at this
      simpa using this
    cases la0 with
    | none => exact inv_attemptFinish now oc _ hs
    | some last =>
      dsimp only
      split
      · exact inv_attemptFinish now oc _ hs
      · exact h

theorem inv_ensure_connected (now : Nat) (dead : Bool) (oc : ConnectOutcome)
    (m : HyperionConnectionManager) (h : Inv m) :
    Inv (m.ensure_connected now dead oc).1 :=
  inv_ensureDispatch now oc _ (inv_healthStep now dead m h)

theorem attemptFinish_ok_socket (now : Nat) (oc : ConnectOutcome)
    (m m2 : HyperionConnectionManager) (s : TcpStream)
    (h : m.attemptFinish now oc = (m2, .ok s)) : m2.socket = some s := by
  unfold attemptFinish at h
  split at h
  · exact absurd (congrArg Prod.snd h) (by simp)
  · next m' heq =>
    split at h
    · next s' hsock =>
      injection h with h1 h2
      injection h2 with h3
      rw [← h1, ← h3]
      exact hsock
    · exact absurd (congrArg Prod.snd h) (by simp)

theorem ensureDispatch_ok_socket (now : Nat) (oc : ConnectOutcome)
    (m m2 : HyperionConnectionManager) (s : TcpStream)
    (h : ensureDispatch now oc m = (m2, .ok s)) : m2.socket = some s := by
  unfold ensureDispatch at h
  split at h
  · split at h
    · next s' hsock =>
      injection h with h1 h2
      injection h2 with h3
      rw [← h1, ← h3]
      exact hsock
    · exact absurd (congrArg Prod.snd h) (by simp)
  · exact attemptFinish_ok_socket now oc _ _ _ h
  · exact attemptFinish_ok_socket now oc _ _ _ h
  · split at h
    · split at h
      · exact attemptFinish_ok_socket now oc _ _ _ h
      · exact absurd (congrArg Prod.snd h) (by simp)
    · exact attemptFinish_ok_socket now oc _ _ _ h

theorem ensure_connected_ok_socket (now : Nat) (dead : Bool)
    (oc : ConnectOutcome) (m m2 : HyperionConnectionManager) (s : TcpStream)
    (h : m.ensure_connected now dead oc = (m2, .ok s)) : m2.socket = some s :=
  ensureDispatch_ok_socket now oc _ _ _ h

theorem traceOk_append_image (t : List ProtoEvent) (h : TraceOk t) :
    TraceOk (t ++ [.image]) := by
  obtain ⟨rest, ht, hall⟩ := h
  refine ⟨rest ++ [.image], by simp [ht], fun e he => ?_⟩
  rcases List.mem_append.mp he with h1 | h2
  · exact hall e h1
  · simpa using h2

theorem inv_handle_network_error (e : IOError) (m : HyperionConnectionManager)
    (h : Inv m) : Inv (m.handle_network_error e).1 := by
  unfold handle_network_error
  split
  · exact ⟨by simp, fun s hs => by simp at hs⟩
  · exact h

theorem inv_reset_failure_state (m : HyperionConnectionManager) (h : Inv m) :
    Inv m.reset_failure_state := by
  unfold reset_failure_state
  split
  · next hst =>
    refine ⟨?_, h.2⟩
    have h1 := h.1
    simp only [hst] at h1
    simp at h1
    simp [h1]
  · exact h

theorem inv_force_reconnect (m : HyperionConnectionManager) (h : Inv m) :
    Inv m.force_reconnect :=
  ⟨by simp [force_reconnect], fun s hs => by simp [force_reconnect] at hs⟩

theorem inv_send_image_with_fallback (now : Nat) (dead : Bool)
    (oc : ConnectOutcome) (sr : Option IOError)
    (m : HyperionConnectionManager) (h : Inv m) :
    Inv (m.send_image_with_fallback now dead oc sr).1 := by
  unfold send_image_with_fallback
  split
  · next m1 s heq =>
    have hInv1 : Inv m1 := by
      have := inv_ensure_connected now dead oc m h
      rw [heq] at this
      exact this
    have hsock : m1.socket = some s :=
      ensure_connected_ok_socket now dead oc m m1 s heq
    split
    · next s2 hsend =>
      have hConn : m1.state = .Connected := hInv1.1.mp (by simp [hsock])
      have hTr : TraceOk s.trace := hInv1.2 s hsock
      cases sr with
      | some e => simp [send_image] at hsend
      | none =>
        simp only [send_image] at hsend
        injection hsend with hs2
        refine ⟨by simp [hConn], fun s3 hs3 => ?_⟩
        simp at hs3
        rw [← hs3, ← hs2]
        exact traceOk_append_image _ hTr
    · next e hsend =>
      split
      · next m2 heq2 =>
        have := inv_handle_network_error e m1 hInv1
        rw [heq2] at this
        exact this
      · next m2 heq2 =>
        have := inv_handle_network_error e m1 hInv1
        rw [heq2] at this
        exact this
  · next m1 e heq =>
    have hInv1 : Inv m1 := by
      have := inv_ensure_connected now dead oc m h
      rw [heq] at this
      exact this
    split <;> exact hInv1

theorem inv_applyOp (op : Op) (m : HyperionConnectionManager) (h : Inv m) :
    Inv (applyOp op m) := by
  cases op with
  | ensure now dead oc => exact inv_ensure_connected now dead oc m h
  | netError e => exact inv_handle_network_error e m h
  | reset => exact inv_reset_failure_state m h
  | force => exact inv_force_reconnect m h
  | send now dead oc sr => exact inv_send_image_with_fallback now dead oc sr m h
  | health dead => exact inv_perform_health_check dead m h
  | stats now => exact h

theorem inv_reachable (cfg : ConnectionConfig) (m : HyperionConnectionManager)
    (h : Reachable cfg m) : Inv m := by
  induction h with
  | init t0 => exact inv_new cfg t0
  | step op m _ ih => exact inv_applyOp op m ih

/-- C3 (counterexample): with `initial_backoff_ms = 2^63`,
`max_backoff_ms = 2^64 - 1` and `consecutive_failures = 2` (within
`[0, max_retries]`), the u64 product `initial_backoff_ms *
2u64.pow(cf - 1)` wraps to 0, so the computed backoff is 0 while the
claimed formula `min(initial_backoff * 2^max(f-1,0), max_backoff)`
gives `2^64 - 1`. -/
theorem calculate_backoff_overflow_cex :
    mOv.consecutive_failures ≤ mOv.config.max_retries
    ∧ mOv.calculate_backoff_duration = 0
    ∧ min (mOv.config.initial_backoff_ms * 2 ^ (mOv.consecutive_failures - 1))
        mOv.config.max_backoff_ms = 2 ^ 64 - 1
    ∧ mOv.calculate_backoff_duration ≠
        min (mOv.config.initial_backoff_ms * 2 ^ (mOv.consecutive_failures - 1))
          mOv.config.max_backoff_ms := by
  refine ⟨by decide, by decide, by decide, by decide⟩

/-- C3 (amended): for every manager with `consecutive_failures ≤
max_retries`, provided the u64 product `initial_backoff_ms *
2^(consecutive_failures - 1)` does not overflow, the computed backoff
equals `min(initial_backoff * 2^max(f-1,0), max_backoff)` milliseconds;
the backoff never exceeds `max_backoff` (unconditionally), and `f = 0`
and `f = 1` both yield the base backoff. -/
theorem calculate_backoff_formula (m : HyperionConnectionManager)
    (hf : m.consecutive_failures ≤ m.config.max_retries)
    (hov : m.config.initial_backoff_ms * 2 ^ (m.consecutive_failures - 1) < 2 ^ 64) :
    m.calculate_backoff_duration =
      min (m.config.initial_backoff_ms * 2 ^ (m.consecutive_failures - 1))
        m.config.max_backoff_ms
    ∧ m.calculate_backoff_duration ≤ m.config.max_backoff_ms
    ∧ (m.consecutive_failures ≤ 1 →
        m.calculate_backoff_duration =
          min m.config.initial_backoff_ms m.config.max_backoff_ms) := by
  have key : m.calculate_backoff_duration =
      min (m.config.initial_backoff_ms * 2 ^ (m.consecutive_failures - 1))
        m.config.max_backoff_ms := by
    unfold calculate_backoff_duration
    rw [Nat.mul_mod_mod, Nat.mod_eq_of_lt hov]
  refine ⟨key, ?_, fun h1 => ?_⟩
  · exact Nat.min_le_right _ _
  · rw [key, Nat.sub_eq_zero_of_le h1, pow_zero, mul_one]

/-- C3 (witness). -/
theorem calculate_backoff_formula_witness :
    mRecon.consecutive_failures ≤ mRecon.config.max_retries
    ∧ mRecon.config.initial_backoff_ms * 2 ^ (mRecon.consecutive_failures - 1) < 2 ^ 64
    ∧ mRecon.calculate_backoff_duration =
        min (mRecon.config.initial_backoff_ms * 2 ^ (mRecon.consecutive_failures - 1))
          mRecon.config.max_backoff_ms :=
  ⟨by decide, by decide,
    (calculate_backoff_formula mRecon (by decide) (by decide)).1⟩

/-- C4: for every IO error of a reconnectable kind (broken pipe,
connection aborted, connection reset, unexpected EOF),
`handle_network_error` drops the socket, sets the state to
`Disconnected`, increments `total_reconnections` by exactly 1, resets
`consecutive_failures` to 0, and returns `true`; nothing else of the
manager changes. -/
theorem handle_network_error_reconnectable (e : IOError)
    (m : HyperionConnectionManager) (h : isReconnectableKind e.kind = true) :
    m.handle_network_error e =
      ({ m with socket := none, state := .Disconnected,
                total_reconnections := m.total_reconnections + 1,
                consecutive_failures := 0 }, true) := by
  simp [handle_network_error, h]

/-- C4 (witness). -/
theorem handle_network_error_reconnectable_witness :
    isReconnectableKind (IOError.mk .connectionReset "peer reset").kind = true
    ∧ mConnected.handle_network_error ⟨.connectionReset, "peer reset"⟩ =
        ({ mConnected with socket := none, state := .Disconnected,
                           total_reconnections := 1,
                           consecutive_failures := 0 }, true) :=
  ⟨by decide,
    handle_network_error_reconnectable ⟨.connectionReset, "peer reset"⟩
      mConnected (by decide)⟩

/-- C10: `handle_network_error` classifies and acts independently of
the current state: for any manager whatsoever — in particular with no
session established (state `Disconnected`, `Reconnecting` or `Failed`,
no socket) — a reconnectable kind yields state `Disconnected`, bumps
`total_reconnections` by 1 and zeroes `consecutive_failures`, so the
counter counts every reconnectable classification call and such a call
silently exits the `Failed` state. -/
theorem handle_network_error_state_independent (e : IOError)
    (m : HyperionConnectionManager) (h : isReconnectableKind e.kind = true) :
    (m.handle_network_error e).1.state = .Disconnected
    ∧ (m.handle_network_error e).1.total_reconnections = m.total_reconnections + 1
    ∧ (m.handle_network_error e).1.consecutive_failures = 0
    ∧ (m.handle_network_error e).1.socket = none
    ∧ (m.handle_network_error e).2 = true := by
  simp [handle_network_error, h]

/-- C10 (witness): applied in the `Failed`, no-socket state. -/
theorem handle_network_error_state_independent_witness :
    isReconnectableKind (IOError.mk .brokenPipe "pipe").kind = true
    ∧ mFailed.state = .Failed
    ∧ mFailed.socket = none
    ∧ (mFailed.handle_network_error ⟨.brokenPipe, "pipe"⟩).1.state = .Disconnected :=
  ⟨by decide, by decide, by decide,
    (handle_network_error_state_independent ⟨.brokenPipe, "pipe"⟩ mFailed
      (by decide)).1⟩

/-- C7: the health check mutates nothing when the state is
`Disconnected`, `Reconnecting` or `Failed`; when the state is
`Connected` and the probe finds the transport dead, it drops the socket
and demotes to `Disconnected` while every other field — in particular
`consecutive_failures` and `total_reconnections` — is unchanged. -/
theorem perform_health_check_frame (m : HyperionConnectionManager)
    (dead : Bool) (s : TcpStream) :
    (m.state ≠ .Connected → m.perform_health_check dead = m)
    ∧ (m.state = .Connected → m.socket = some s →
        m.perform_health_check true =
          { m with socket := none, state := .Disconnected }) := by
  obtain ⟨c0, s0, st0, la0, cf0, lhc0, tr0, cst0⟩ := m
  constructor
  · intro h
    cases st0 with
    | Connected => exact absurd rfl h
    | Disconnected => rfl
    | Reconnecting => rfl
    | Failed => rfl
  · intro h1 h2
    simp only at h1 h2
    subst h1
    subst h2
    rfl

theorem attemptFinish_fail (now : Nat) (oc : ConnectOutcome)
    (m : HyperionConnectionManager) (hoc : connectSucceeds oc = false) :
    ∃ m1 e, m.attemptFinish now oc = (m1, .error e) := by
  cases oc with
  | tcpFail e => exact ⟨_, e, rfl⟩
  | setupFail e => exact ⟨_, e, rfl⟩
  | handshake reg rep col =>
    cases reg with
    | some e => exact ⟨_, e, rfl⟩
    | none =>
      cases rep with
      | some e => exact ⟨_, e, rfl⟩
      | none =>
        cases col with
        | some e => exact ⟨_, e, rfl⟩
        | none => simp [connectSucceeds] at hoc

theorem healthStep_state_failed (now : Nat) (dead : Bool)
    (m : HyperionConnectionManager) (hst : m.state = .Failed) :
    (healthStep now dead m).state = .Failed := by
  obtain ⟨c0, s0, st0, la0, cf0, lhc0, tr0, cst0⟩ := m
  simp only at hst
  subst hst
  unfold healthStep perform_health_check
  split <;> rfl

/-- C1 (counterexample): `mFailed` is a reachable manager in state
`Failed` (its one connect attempt failed with `max_retries = 1`), yet
the next `ensure_connected` call, far from returning the
Unavailable/not-connected failure without a connect attempt, performs
a full connect: with a succeeding oracle it returns `Ok` and leaves the
manager `Connected`. -/
theorem failed_not_terminal_cex :
    mFailed.state = .Failed
    ∧ (mFailed.ensure_connected 5 false (.handshake none none none)).2 =
        .ok { trace := [.register, .replyRead, .color] }
    ∧ (mFailed.ensure_connected 5 false (.handshake none none none)).1.state =
        .Connected := by
  refine ⟨by decide, rfl, by decide⟩

/-- C1 (amended): once `consecutive_failures` reaches `max_retries`,
`handle_connection_failure` does set the state to `Failed` with no
socket; but a subsequent `ensure_connected` call in state `Failed`
behaves exactly as from `Disconnected` — it immediately attempts a
fresh connect (no refusal, no backoff gate) — while
`reset_failure_state` and `force_reconnect` demote to `Disconnected`
and zero `consecutive_failures`. -/
theorem failed_state_behavior (m : HyperionConnectionManager) (now : Nat)
    (dead : Bool) (oc : ConnectOutcome)
    (hskip : now - m.last_health_check < m.config.health_check_interval_ms) :
    (m.consecutive_failures + 1 ≥ m.config.max_retries →
      m.handle_connection_failure.state = .Failed
      ∧ m.handle_connection_failure.socket = none)
    ∧ (m.state = .Failed → m.ensure_connected now dead oc = m.attemptFinish now oc)
    ∧ (m.state = .Failed →
        m.reset_failure_state =
          { m with state := .Disconnected, consecutive_failures := 0 })
    ∧ m.force_reconnect =
        { m with socket := none, state := .Disconnected, consecutive_failures := 0 } := by
  refine ⟨fun h => ?_, fun hst => ?_, fun hst => ?_, rfl⟩
  · unfold handle_connection_failure
    rw [if_pos (by simpa using h)]
    exact ⟨rfl, rfl⟩
  · unfold ensure_connected healthStep
    rw [if_neg (by omega)]
    obtain ⟨c0, s0, st0, la0, cf0, lhc0, tr0, cst0⟩ := m
    simp only at hst
    subst hst
    rfl
  · unfold reset_failure_state
    rw [if_pos hst]

/-- C1 (witness). -/
theorem failed_state_behavior_witness :
    (5 - mFailed.last_health_check < mFailed.config.health_check_interval_ms
      ∧ mFailed.state = .Failed)
    ∧ mFailed.ensure_connected 5 false (.tcpFail errConn) =
        mFailed.attemptFinish 5 (.tcpFail errConn) :=
  ⟨⟨by decide, by decide⟩,
    (failed_state_behavior mFailed 5 false (.tcpFail errConn)
      (by decide)).2.1 (by decide)⟩

/-- C2 (counterexample): invoked while `Failed`, `send_image_with_fallback`
does attempt IO: with a succeeding connect oracle it reconnects, writes
the image, and returns `Ok true` — not the claimed `Ok false` with no
connect attempt and no write. -/
theorem send_fallback_failed_cex :
    mFailed.state = .Failed
    ∧ (mFailed.send_image_with_fallback 5 false (.handshake none none none) none).2 =
        .ok true
    ∧ (mFailed.send_image_with_fallback 5 false (.handshake none none none) none).1.state =
        .Connected := by
  refine ⟨by decide, rfl, by decide⟩

/-- C2 (amended): invoked while `Failed`, `send_image_with_fallback`
first calls `ensure_connected`, which does attempt a connect; whenever
that attempt does not fully succeed it returns `Ok false` — the
non-error "not sent, fallback" outcome — and never raises an error. -/
theorem send_fallback_failed_amended (m : HyperionConnectionManager)
    (now : Nat) (dead : Bool) (oc : ConnectOutcome) (sr : Option IOError)
    (hst : m.state = .Failed) (hoc : connectSucceeds oc = false) :
    (m.send_image_with_fallback now dead oc sr).2 = .ok false := by
  have hstH := healthStep_state_failed now dead m hst
  obtain ⟨m1, e, hAF⟩ := attemptFinish_fail now oc (healthStep now dead m) hoc
  have hens : m.ensure_connected now dead oc = (m1, .error e) := by
    unfold ensure_connected ensureDispatch
    rw [hstH]
    exact hAF
  unfold send_image_with_fallback
  rw [hens]
  split
  · rename_i m2 s2 heq
    exact absurd (congrArg Prod.snd heq) (by simp)
  · split <;> rfl

/-- C2 (witness). -/
theorem send_fallback_failed_amended_witness :
    (mFailed.state = .Failed ∧ connectSucceeds (.tcpFail errConn) = false)
    ∧ (mFailed.send_image_with_fallback 5 false (.tcpFail errConn) none).2 =
        .ok false :=
  ⟨⟨by decide, by decide⟩,
    send_fallback_failed_amended mFailed 5 false (.tcpFail errConn) none
      (by decide) (by decide)⟩

/-- C8: in state `Reconnecting` with a stamped attempt, while the
elapsed time since `last_attempt` is below the computed backoff,
`ensure_connected` returns the "Still in backoff period" NotConnected
error with the manager completely unchanged (no connect attempt, no
sleep); once the backoff has elapsed, or when no attempt is stamped, it
proceeds to a connect attempt. -/
theorem ensure_connected_backoff_gate (m : HyperionConnectionManager)
    (now : Nat) (dead : Bool) (oc : ConnectOutcome) (last : Nat)
    (hst : m.state = .Reconnecting)
    (hskip : now - m.last_health_check < m.config.health_check_interval_ms) :
    (m.last_connection_attempt = some last →
      now - last < m.calculate_backoff_duration →
      m.ensure_connected now dead oc =
        (m, .error ⟨.notConnected, "Still in backoff period"⟩))
    ∧ (m.last_connection_attempt = some last →
        now - last ≥ m.calculate_backoff_duration →
        m.ensure_connected now dead oc = m.attemptFinish now oc)
    ∧ (m.last_connection_attempt = none →
        m.ensure_connected now dead oc = m.attemptFinish now oc) := by
  have hHS : healthStep now dead m = m := by
    unfold healthStep
    rw [if_neg (by omega)]
  refine ⟨fun hla hlt => ?_, fun hla hge => ?_, fun hla => ?_⟩
  · unfold ensure_connected
    rw [hHS]
    unfold ensureDispatch
    rw [hst, hla]
    dsimp only
    rw [if_neg (by omega)]
  · unfold ensure_connected
    rw [hHS]
    unfold ensureDispatch
    rw [hst, hla]
    dsimp only
    rw [if_pos (by omega)]
  · unfold ensure_connected
    rw [hHS]
    unfold ensureDispatch
    rw [hst, hla]

/-- C8 (witness): `mRecon` is one failure in with an attempt stamped at
time 0; at time 5 the 100 ms backoff has not elapsed. -/
theorem ensure_connected_backoff_gate_witness :
    (mRecon.state = .Reconnecting
      ∧ 5 - mRecon.last_health_check < mRecon.config.health_check_interval_ms
      ∧ mRecon.last_connection_attempt = some 0
      ∧ 5 - 0 < mRecon.calculate_backoff_duration)
    ∧ mRecon.ensure_connected 5 false (.tcpFail errConn) =
        (mRecon, .error ⟨.notConnected, "Still in backoff period"⟩) :=
  ⟨⟨by decide, by decide, by decide, by decide⟩,
    (ensure_connected_backoff_gate mRecon 5 false (.tcpFail errConn) 0
      (by decide) (by decide)).1 (by decide) (by decide)⟩

/-- C5: for every IO error whose kind is not reconnectable,
`handle_network_error` returns `false` and leaves the manager — state,
socket, both counters — completely unchanged; `send_image_with_fallback`
propagates exactly such an error (the failed write's own error) to the
caller, and an `Err` outcome arises in no other way: every `Err` it
ever returns is the `send_image` error of a write that failed with a
non-reconnectable kind. -/
theorem fatal_error_frame_and_propagation (e : IOError)
    (m : HyperionConnectionManager) (h : isReconnectableKind e.kind = false) :
    m.handle_network_error e = (m, false)
    ∧ (∀ now dead oc m1 s, m.ensure_connected now dead oc = (m1, .ok s) →
        m.send_image_with_fallback now dead oc (some e) = (m1, .error e))
    ∧ (∀ now dead oc sr m2 r,
        m.send_image_with_fallback now dead oc sr = (m2, .error r) →
        sr = some r ∧ isReconnectableKind r.kind = false) := by
  refine ⟨by simp [handle_network_error, h], ?_, ?_⟩
  · intro now dead oc m1 s heq
    have hne1 : m1.handle_network_error e = (m1, false) := by
      simp [handle_network_error, h]
    unfold send_image_with_fallback
    rw [heq]
    dsimp only [send_image]
    rw [hne1]
  · intro now dead oc sr m2 r heq
    unfold send_image_with_fallback at heq
    split at heq
    · rename_i m1 s hens
      split at heq
      · exact absurd (congrArg Prod.snd heq) (by simp)
      · rename_i e2 hsend
        cases sr with
        | none => simp [send_image] at hsend
        | some e3 =>
          have he3 : e3 = e2 := by
            simpa [send_image] using hsend
          split at heq
          · exact absurd (congrArg Prod.snd heq) (by simp)
          · rename_i m3 hne2
            have hk2 : isReconnectableKind e2.kind = false := by
              by_contra hk
              have hk' : isReconnectableKind e2.kind = true := by
                revert hk
                cases isReconnectableKind e2.kind <;> simp
              rw [handle_network_error, if_pos (by simp [hk'])] at hne2
              exact absurd (congrArg Prod.snd hne2) (by simp)
            injection heq with h1 h2
            injection h2 with h3
            refine ⟨by rw [he3, h3], by rw [← h3]; exact hk2⟩
    · rename_i m1 e1 hens
      split at heq <;> exact absurd (congrArg Prod.snd heq) (by simp)

/-- C5 (witness). -/
theorem fatal_error_frame_and_propagation_witness :
    isReconnectableKind (errConn).kind = false
    ∧ mConnected.handle_network_error errConn = (mConnected, false) :=
  ⟨by decide, (fatal_error_frame_and_propagation errConn mConnected (by decide)).1⟩

/-- C6: in every state reachable by any sequence of the public
operations (`ensure_connected`, `handle_network_error`,
`reset_failure_state`, `force_reconnect`, `send_image_with_fallback`,
the health check, `get_stats`), the transport socket is present if and
only if the state is `Connected`. -/
theorem socket_iff_connected (cfg : ConnectionConfig)
    (m : HyperionConnectionManager) (h : Reachable cfg m) :
    m.socket.isSome ↔ m.state = .Connected :=
  (inv_reachable cfg m h).1

/-- C6 (witness): evaluated on the reachable `Connected` manager. -/
theorem socket_iff_connected_witness :
    mConnected.socket.isSome ↔ mConnected.state = .Connected :=
  socket_iff_connected cfgA mConnected
    (Reachable.step (.ensure 0 false (.handshake none none none)) _
      (Reachable.init 0))

/-- C9: on every transport installed in a reachable manager, the
handshake ran to completion before anything else: the trace starts with
Register written, its reply consumed, then the initial color probe, and
everything after that point is an image write — so the Register command
and its reply strictly precede the first Color/Image write, and the
handle is installed only after the handshake succeeded. -/
theorem handshake_precedes_streaming (cfg : ConnectionConfig)
    (m : HyperionConnectionManager) (s : TcpStream)
    (h1 : Reachable cfg m) (h2 : m.socket = some s) : TraceOk s.trace :=
  (inv_reachable cfg m h1).2 s h2

/-- C9 (witness): the freshly connected manager's socket carries
exactly the handshake events. -/
theorem handshake_precedes_streaming_witness :
    mConnected.socket = some ⟨[.register, .replyRead, .color]⟩
    ∧ TraceOk [ProtoEvent.register, .replyRead, .color] :=
  ⟨by decide,
    handshake_precedes_streaming cfgA mConnected
      ⟨[.register, .replyRead, .color]⟩
      (Reachable.step (.ensure 0 false (.handshake none none none)) _
        (Reachable.init 0))
      (by decide)⟩

/-- C7 (witness). -/
theorem perform_health_check_frame_witness :
    (mFailed.state ≠ .Connected ∧ mFailed.perform_health_check true = mFailed)
    ∧ (mConnected.state = .Connected
        ∧ mConnected.socket = some ⟨[.register, .replyRead, .color]⟩
        ∧ mConnected.perform_health_check true =
            { mConnected with socket := none, state := .Disconnected }) :=
  ⟨⟨by decide,
      (perform_health_check_frame mFailed true ⟨[]⟩).1 (by decide)⟩,
    ⟨by decide, by decide,
      (perform_health_check_frame mConnected true
        ⟨[.register, .replyRead, .color]⟩).2 (by decide) (by decide)⟩⟩

end HyperionConnectionManager
